import Mathlib

/-!
Verification of the conversation/session synchronization store.

Shallow embedding of `src/store/chat-store.ts` (the ConversationSessionStore).
JS strings are modelled as Lean `String` (chars standing for UTF-16 code
units), `Date` values as `Nat` timestamps, and each network round trip as an
explicit parameter describing the backend's response (`Option`/`Bool` for
success vs. failure). Zustand's `set`/`get` become explicit state passing on
a `StoreState` record; an async operation is embedded as one pure function
from the pre-state and the response data to the post-state, which is faithful
because the execution model serializes all store mutations.
-/

/-- The `role` union type of a chat message. -/
inductive Role where
  | user
  | assistant
deriving DecidableEq, Repr

/-- Type `Message` from chat-store.ts: role, content and a timestamp. -/
structure Message where
  role : Role
  content : String
  timestamp : Nat
deriving DecidableEq, Repr

/-- Type `Conversation` from chat-store.ts. -/
structure Conversation where
  id : String
  title : String
  messages : List Message
  createdAt : Nat
  lastUpdatedAt : Nat
deriving DecidableEq, Repr

/-- Type `Session` (a remote session summary) from chat-store.ts.  The source keeps
`created_at`/`last_updated` as strings and reparses them with `new Date`; we
model the parsed timestamps directly as `Nat`. -/
structure Session where
  session_id : String
  title : String
  created_at : Nat
  last_updated : Nat
  message_count : Nat
deriving DecidableEq, Repr

/-- The part of `ChatResponse` the store reads: `generation` and `session_id`
(the `messages`/`db_search` fields are never consumed by the store). -/
structure ChatResponse where
  generation : String
  session_id : String
deriving DecidableEq, Repr

/-- The part of `ConversationResponse` that `loadConversation` consumes. -/
structure ConvResponse where
  messages : List (Role × String)
  created_at : Nat
  last_updated : Nat
  title : String
deriving DecidableEq, Repr

/-- The store state fields involved in conversation/session reconciliation
(`files`, `apiKey`, `apiHost` never interact with the fields below). -/
structure StoreState where
  conversations : List Conversation
  sessions : List Session
  currentConversationId : Option String
  userId : String
  isLoading : Bool
  isConnected : Bool
  connectionError : Option String
deriving DecidableEq, Repr

/-- The store's initial state (`conversations: [], sessions: [],
currentConversationId: null, ...`). -/
def initialState : StoreState :=
  { conversations := []
    sessions := []
    currentConversationId := none
    userId := ""
    isLoading := false
    isConnected := false
    connectionError := none }

/-! ## Title derivation (`createTitleFromContent`) -/

/-- The boundary characters the source tries, in order:
`const breakPoints = [' ', ',', '.', '?', '!']`. -/
def breakPoints : List Char := [' ', ',', '.', '?', '!']

/-- Downward scan behind JS `String.prototype.lastIndexOf(ch, i)`: the
largest index `≤ i` holding `ch`, scanning from `i` down to `0`. -/
def lastIndexOfAux (cs : List Char) (ch : Char) : Nat → Option Nat
  | 0 => if cs.get? 0 = some ch then some 0 else none
  | i + 1 => if cs.get? (i + 1) = some ch then some (i + 1) else lastIndexOfAux cs ch i

/-- JS `content.lastIndexOf(ch, fromIndex)` (with `fromIndex` clamped to the
last index, as JS does); `none` models the return value `-1`. -/
def lastIndexOf (cs : List Char) (ch : Char) (fromIndex : Nat) : Option Nat :=
  lastIndexOfAux cs ch (min fromIndex (cs.length - 1))

/-- JS whitespace test used by `trim` (the whitespace characters that can
occur in our strings). -/
def isJsSpace (c : Char) : Bool :=
  c = ' ' || c = '\t' || c = '\n' || c = '\r'

/-- JS `String.prototype.trim`: drop whitespace from both ends. -/
def jsTrim (cs : List Char) : List Char :=
  ((cs.dropWhile isJsSpace).reverse.dropWhile isJsSpace).reverse

/-- The `for (const char of breakPoints)` loop of `createTitleFromContent`:
the first breakpoint character whose last occurrence at or before index 30 is
past index 10 sets `bestBreakPoint = index + 1` and breaks; otherwise the
initial value 30 stands. -/
def bestBreakAux (cs : List Char) : List Char → Nat
  | [] => 30
  | ch :: rest =>
    match lastIndexOf cs ch 30 with
    | some i => if 10 < i then i + 1 else bestBreakAux cs rest
    | none => bestBreakAux cs rest

/-- Value `bestBreakPoint` as computed by `createTitleFromContent`'s loop. -/
def bestBreak (cs : List Char) : Nat :=
  bestBreakAux cs breakPoints

/-- Function `createTitleFromContent` from chat-store.ts: content of length ≤ 30 is
returned verbatim; otherwise `content.substring(0, bestBreakPoint).trim() + '...'`. -/
def createTitleFromContent (content : String) : String :=
  let cs := content.toList
  if cs.length ≤ 30 then content
  else ⟨jsTrim (cs.take (bestBreak cs)) ++ ['.', '.', '.']⟩

/-! ## The UUID pattern test -/

/-- One character of `[0-9a-f]` under the regex's `i` flag. -/
def isHexDig (c : Char) : Bool :=
  ('0' ≤ c && c ≤ '9') || ('a' ≤ c && c ≤ 'f') || ('A' ≤ c && c ≤ 'F')

/-- Consume exactly `n` hex digits from the front, returning the rest. -/
def hexRun : Nat → List Char → Option (List Char)
  | 0, rest => some rest
  | _ + 1, [] => none
  | n + 1, c :: rest => if isHexDig c then hexRun n rest else none

/-- The anchored regex
`/^[0-9a-f]{8}-[0-9a-f]{4}-[0-9a-f]{4}-[0-9a-f]{4}-[0-9a-f]{12}$/i`
used by `sendMessage` to test `currentConversationId`. -/
def isUuidPattern (s : String) : Bool :=
  match hexRun 8 s.toList with
  | some ('-' :: r1) =>
    match hexRun 4 r1 with
    | some ('-' :: r2) =>
      match hexRun 4 r2 with
      | some ('-' :: r3) =>
        match hexRun 4 r3 with
        | some ('-' :: r4) =>
          match hexRun 12 r4 with
          | some [] => true
          | _ => false
        | _ => false
      | _ => false
    | _ => false
  | _ => false

/-! ## Store operations

Each async operation takes the data of its network round trip as an explicit
argument (`none` / `false` standing for a thrown request).  `uuidv4()` calls
are modelled by an explicit `tempId` argument supplied by the environment. -/

/-- The outgoing `/chat` payload: `{question, user_id, session_id?}`. -/
structure ChatPayload where
  question : String
  user_id : String
  session_id : Option String
deriving DecidableEq, Repr

/-- The payload construction at the top of `sendMessage`: `session_id` is set
only when `currentConversationId` is non-null, some session in `sessions` has
that `session_id`, and the UUID regex accepts it. -/
def buildPayload (state : StoreState) (content : String) : ChatPayload :=
  { question := content
    user_id := state.userId
    session_id :=
      match state.currentConversationId with
      | none => none
      | some cid =>
        if state.sessions.any (fun s => s.session_id = cid) && isUuidPattern cid then
          some cid
        else none }

/-- JS truthiness of the nullable conversation id: `null` and the empty
string are both falsy, so the tests `if (!currentConversationId)` and
`if (currentConversationId)` in chat-store.ts treat `""` exactly like
`null`.  `truthyId o` is `some` of the id when `o` is truthy, else `none`. -/
def truthyId : Option String → Option String
  | none => none
  | some s => if s = "" then none else some s

/-- Operation `addMessage(content, role)` from chat-store.ts.  `now` models `new Date()`
and `tempId` the `uuidv4()` result (used only in the falsy-current branch).
The branch test `if (!currentConversationId)` is by JS truthiness, so a falsy
current id (null or the empty string) mints a temporary conversation. -/
def addMessage (state : StoreState) (content : String) (role : Role) (now : Nat)
    (tempId : String) : StoreState :=
  let message : Message := { role := role, content := content, timestamp := now }
  match truthyId state.currentConversationId with
  | none =>
    { state with
      conversations :=
        { id := tempId
          title := if role = Role.user then createTitleFromContent content
                   else "New conversation"
          messages := [message]
          createdAt := now
          lastUpdatedAt := now } :: state.conversations
      currentConversationId := some tempId }
  | some cid =>
    if state.conversations.any (fun c => c.id = cid) then
      { state with
        conversations := state.conversations.map (fun conv =>
          if conv.id = cid then
            let shouldUpdateTitle :=
              role = Role.user &&
                (conv.messages.length = 0 || conv.title = "New conversation" ||
                  conv.title = "New Chat")
            { conv with
              title := if shouldUpdateTitle then createTitleFromContent content
                       else conv.title
              messages := conv.messages ++ [message]
              lastUpdatedAt := now }
          else conv) }
    else
      let session? := state.sessions.find? (fun s => s.session_id = cid)
      { state with
        conversations :=
          { id := cid
            -- `session?.title || (...)`: an empty server title is falsy in JS
            title :=
              match session? with
              | some s =>
                if s.title ≠ "" then s.title
                else if role = Role.user then createTitleFromContent content
                else "New conversation"
              | none =>
                if role = Role.user then createTitleFromContent content
                else "New conversation"
            messages := [message]
            createdAt := match session? with | some s => s.created_at | none => now
            lastUpdatedAt := now } :: state.conversations }

/-- Operation `loadSessions()` given the round trip's result: `some ss` when the GET
succeeded with a `sessions` field, `none` when it threw (sessions untouched
either way on failure). -/
def applyLoadSessions (state : StoreState) (result : Option (List Session)) :
    StoreState :=
  match result with
  | some ss => { state with sessions := ss, isLoading := false }
  | none => { state with isLoading := false }

/-- Operation `loadConversation(sessionId)` given the round trip's result. -/
def loadConversation (state : StoreState) (sessionId : String)
    (result : Option ConvResponse) : StoreState :=
  match result with
  | some r =>
    let conversation : Conversation :=
      { id := sessionId
        -- `response.data.metadata.title || "Conversation"`
        title := if r.title ≠ "" then r.title else "Conversation"
        messages := r.messages.map (fun m =>
          { role := m.1, content := m.2, timestamp := r.created_at })
        createdAt := r.created_at
        lastUpdatedAt := r.last_updated }
    { state with
      conversations :=
        state.conversations.filter (fun c => c.id ≠ sessionId) ++ [conversation]
      currentConversationId := some sessionId
      isLoading := false }
  | none => { state with isLoading := false }

/-- Operation `connect()` given the health probe's outcome (`none` = request threw,
`some status` = returned `{status}`) and, on the healthy path, the
`loadSessions` round trip's result. -/
def connect (state : StoreState) (healthResult : Option String)
    (ls : Option (List Session)) : StoreState :=
  let s1 := { state with isLoading := true, connectionError := none }
  match healthResult with
  | some status =>
    if status = "healthy" then
      applyLoadSessions
        { s1 with
          isConnected := true
          isLoading := false
          conversations := []
          currentConversationId := none } ls
    else
      { s1 with
        isConnected := false
        isLoading := false
        connectionError := some "API is not healthy" }
  | none =>
    { s1 with
      isConnected := false
      isLoading := false
      connectionError := some
        "Failed to connect to API. Possible CORS issue. Try using the app in a non-development environment." }

/-- Operation `sendMessage(content)` when the POST resolves (`resp` the response body;
`ls` the result of the `loadSessions` refresh issued on a session-id change).
`cid0` is the destructured `currentConversationId` captured before the
optimistic append — the response handler tests this captured value, not the
state's current one, and tests it by JS truthiness (`!currentConversationId`
and `if (currentConversationId)`), so a falsy captured id (null or the empty
string) skips the in-place rename. -/
def sendMessageSuccess (state : StoreState) (content : String) (now : Nat)
    (tempId : String) (resp : ChatResponse) (ls : Option (List Session)) :
    StoreState :=
  let cid0 := state.currentConversationId
  let s1 := { state with isLoading := true }
  let s2 := addMessage s1 content Role.user now tempId
  if resp.generation ≠ "" then
    let s3 := addMessage s2 resp.generation Role.assistant now tempId
    let s4 :=
      if resp.session_id ≠ "" ∧ (truthyId cid0 = none ∨ cid0 ≠ some resp.session_id) then
        let s4a :=
          match truthyId cid0 with
          | some c =>
            { s3 with
              conversations := s3.conversations.map (fun conv =>
                if conv.id = c then { conv with id := resp.session_id } else conv)
              currentConversationId := some resp.session_id }
          | none => { s3 with currentConversationId := some resp.session_id }
        applyLoadSessions s4a ls
      else s3
    { s4 with isLoading := false }
  else
    { s2 with isLoading := false }

/-- Operation `sendMessage(content)` when the POST throws: the optimistic append has
already happened; the catch clause only clears the loading flag. -/
def sendMessageFailure (state : StoreState) (content : String) (now : Nat)
    (tempId : String) : StoreState :=
  let s2 := addMessage { state with isLoading := true } content Role.user now tempId
  { s2 with isLoading := false }

/-- Operation `deleteSession(sessionId)` (also reached through `deleteConversation`),
given whether the remote DELETE succeeded. -/
def deleteSession (state : StoreState) (sessionId : String) (remoteOk : Bool) :
    StoreState :=
  if remoteOk then
    { state with
      conversations := state.conversations.filter (fun conv => conv.id ≠ sessionId)
      sessions := state.sessions.filter (fun s => s.session_id ≠ sessionId)
      currentConversationId :=
        if state.currentConversationId = some sessionId then none
        else state.currentConversationId
      isLoading := false }
  else
    { state with isLoading := false }

/-- Operation `startNewConversation()`. -/
def startNewConversation (state : StoreState) : StoreState :=
  { state with currentConversationId := none }

/-- Operation `setCurrentConversation(id)`: switch the pointer when the conversation is
loaded, else delegate to `loadConversation`. -/
def setCurrentConversation (state : StoreState) (id : String)
    (loadResult : Option ConvResponse) : StoreState :=
  if state.conversations.any (fun c => c.id = id) then
    { state with currentConversationId := some id }
  else
    loadConversation state id loadResult

/-- Operation `setUserId(id)`: resets conversations and the current pointer. -/
def setUserId (state : StoreState) (id : String) : StoreState :=
  { state with userId := id, conversations := [], currentConversationId := none }

/-! ## The locally minted temporary ids

The source calls `uuidv4()` from the `uuid` npm package — an external
dependency, not repository code.  We embed its documented output format
(RFC 4122 version 4): sixteen random bytes with the version nibble forced to
`4` and the variant bits to `10`, printed as lowercase hex in five groups
`8-4-4-4-12`.  The random bytes are an explicit argument. -/

/-- Lowercase hex digits. -/
def hexChars : List Char := "0123456789abcdef".toList

/-- The lowercase hex digit of a nibble. -/
def hexChar (n : Nat) : Char := hexChars.getD n '0'

/-- Two lowercase hex digits of a byte. -/
def byteHex (b : Nat) : List Char := [hexChar (b / 16 % 16), hexChar (b % 16)]

/-- Output of `uuidv4()` on the given random bytes: version nibble forced to 4
(`(b6 & 0x0f) | 0x40`), variant bits forced to 10 (`(b8 & 0x3f) | 0x80`),
formatted `8-4-4-4-12` in lowercase hex. -/
def uuidv4 (bytes : List Nat) : String :=
  let b : Nat → Nat := fun i => bytes.getD i 0 % 256
  let g1 := byteHex (b 0) ++ byteHex (b 1) ++ byteHex (b 2) ++ byteHex (b 3)
  let g2 := byteHex (b 4) ++ byteHex (b 5)
  let g3 := byteHex (b 6 % 16 + 64) ++ byteHex (b 7)
  let g4 := byteHex (b 8 % 64 + 128) ++ byteHex (b 9)
  let g5 := byteHex (b 10) ++ byteHex (b 11) ++ byteHex (b 12) ++ byteHex (b 13) ++
    byteHex (b 14) ++ byteHex (b 15)
  ⟨g1 ++ '-' :: g2 ++ '-' :: g3 ++ '-' :: g4 ++ '-' :: g5⟩

/-! ## Specification-side notions for the title rule -/

/-- Whether `ch` occurs in `cs` at some index past 10 and at or before 30. -/
def hasBoundaryIn (cs : List Char) (ch : Char) : Bool :=
  (List.range 31).any (fun i => 10 < i && cs.get? i = some ch)

/-- The amended title rule for content longer than 30 characters: the cut
uses the last occurrence at or before index 30 of the first breakpoint
character (in the order space, comma, period, question mark, exclamation
mark) that occurs past index 10 and at or before index 30; the title is the
content up to and including that occurrence, trimmed, plus an ellipsis;
if no breakpoint character occurs in that window, the title is the first 30
characters, trimmed, plus an ellipsis. -/
def TitleSpec (content : String) : Prop :=
  let cs := content.toList
  match breakPoints.find? (fun ch => hasBoundaryIn cs ch) with
  | some ch =>
    ∃ i, 10 < i ∧ i ≤ 30 ∧ cs.get? i = some ch ∧
      (∀ j, i < j → j ≤ 30 → cs.get? j ≠ some ch) ∧
      createTitleFromContent content = ⟨jsTrim (cs.take (i + 1)) ++ ['.', '.', '.']⟩
  | none =>
    createTitleFromContent content = ⟨jsTrim (cs.take 30) ++ ['.', '.', '.']⟩

/-! ## The operations as one step relation (for the per-id uniqueness claim) -/

/-- One user intent or network-response callback, with the data of its
network round trips. -/
inductive Op where
  | connectOp (health : Option String) (ls : Option (List Session))
  | loadSessionsOp (result : Option (List Session))
  | loadConversationOp (sessionId : String) (result : Option ConvResponse)
  | sendMessageOp (content : String) (now : Nat) (tempId : String)
      (outcome : Option (ChatResponse × Option (List Session)))
  | startNewOp
  | setCurrentOp (id : String) (loadResult : Option ConvResponse)
  | deleteSessionOp (id : String) (remoteOk : Bool)
  | addMessageOp (content : String) (role : Role) (now : Nat) (tempId : String)
  | setUserIdOp (id : String)
deriving DecidableEq, Repr

/-- The store's transition on one operation. -/
def step (state : StoreState) : Op → StoreState
  | .connectOp health ls => connect state health ls
  | .loadSessionsOp result => applyLoadSessions state result
  | .loadConversationOp sessionId result => loadConversation state sessionId result
  | .sendMessageOp content now tempId outcome =>
    match outcome with
    | some (resp, ls) => sendMessageSuccess state content now tempId resp ls
    | none => sendMessageFailure state content now tempId
  | .startNewOp => startNewConversation state
  | .setCurrentOp id loadResult => setCurrentConversation state id loadResult
  | .deleteSessionOp id remoteOk => deleteSession state id remoteOk
  | .addMessageOp content role now tempId => addMessage state content role now tempId
  | .setUserIdOp id => setUserId state id

/-- The ids of the conversation list, in order. -/
def convIds (state : StoreState) : List String :=
  state.conversations.map Conversation.id

/-- Side conditions under which the amended per-id uniqueness invariant is
preserved: locally minted temporary ids are non-empty and fresh (minting
happens whenever the current id is falsy, i.e. null or the empty string),
and a successful chat response never carries a `session_id` that already
keys a conversation other than the current one. -/
def opSafe (state : StoreState) : Op → Prop
  | .addMessageOp _ _ _ tempId =>
    truthyId state.currentConversationId = none → tempId ∉ convIds state
  | .sendMessageOp _ _ tempId outcome =>
    (truthyId state.currentConversationId = none →
      tempId ≠ "" ∧ tempId ∉ convIds state) ∧
      (match outcome with
       | some (resp, _) =>
         resp.session_id ∉ convIds state ∨
           state.currentConversationId = some resp.session_id
       | none => True)
  | _ => True

/-! ## Payload construction (claim C3) -/

/-- Characterization of the payload's `session_id` field, shared by the C3
and C10 theorems. -/
lemma buildPayload_session_id_eq_some (state : StoreState) (content : String)
    (cid : String) :
    (buildPayload state content).session_id = some cid ↔
      state.currentConversationId = some cid ∧
        (∃ s ∈ state.sessions, s.session_id = cid) ∧ isUuidPattern cid = true := by
  cases h : state.currentConversationId with
  | none => simp [buildPayload, h]
  | some c =>
    simp only [buildPayload, h]
    constructor
    · intro hc
      split at hc
      case isTrue hcond =>
        simp only [Option.some.injEq] at hc
        subst hc
        simp only [Bool.and_eq_true, List.any_eq_true, decide_eq_true_eq] at hcond
        exact ⟨rfl, hcond.1, hcond.2⟩
      case isFalse => exact absurd hc (by simp)
    · rintro ⟨hc, hmem, hpat⟩
      simp only [Option.some.injEq] at hc
      subst hc
      have hcond :
          ((state.sessions.any fun s => s.session_id = c) && isUuidPattern c) = true := by
        simp only [Bool.and_eq_true, List.any_eq_true, decide_eq_true_eq]
        exact ⟨hmem, hpat⟩
      simp [hcond]

/-- C3: the chat request payload built by `sendMessage` contains a
`session_id` field if and only if `currentConversationId` is non-null, equals
the `session_id` of some entry in the current sessions list, and matches the
canonical UUID textual pattern; in particular `session_id` is never included
when `currentConversationId` is null or fails the UUID pattern, even if that
id appears in `sessions`. -/
theorem payload_session_id_iff_valid (state : StoreState) (content : String) :
    (∀ cid : String,
      (buildPayload state content).session_id = some cid ↔
        state.currentConversationId = some cid ∧
          (∃ s ∈ state.sessions, s.session_id = cid) ∧ isUuidPattern cid = true) ∧
    (state.currentConversationId = none →
      (buildPayload state content).session_id = none) ∧
    (∀ cid : String, state.currentConversationId = some cid →
      isUuidPattern cid = false → (buildPayload state content).session_id = none) := by
  refine ⟨fun cid => buildPayload_session_id_eq_some state content cid, ?_, ?_⟩
  · intro h
    simp [buildPayload, h]
  · intro cid hcur hpat
    simp [buildPayload, hcur, hpat]

/-! ## connect() clears local conversations (claim C5) -/

/-- C5: after `connect()` succeeds (health probe returns status `healthy`),
the conversations list is empty and `currentConversationId` is null
regardless of the prior state, and `isConnected` is true. -/
theorem connect_healthy_clears_conversations (state : StoreState)
    (ls : Option (List Session)) (status : String) (h : status = "healthy") :
    (connect state (some status) ls).conversations = [] ∧
    (connect state (some status) ls).currentConversationId = none ∧
    (connect state (some status) ls).isConnected = true := by
  subst h
  cases ls <;> simp [connect, applyLoadSessions]

/-- Witness for C5 at a concrete state holding two conversations. -/
theorem connect_healthy_clears_conversations_witness :
    (connect
      { initialState with
        conversations :=
          [{ id := "a", title := "A", messages := [], createdAt := 0, lastUpdatedAt := 0 },
           { id := "b", title := "B", messages := [], createdAt := 0, lastUpdatedAt := 0 }]
        currentConversationId := some "a" }
      (some "healthy") none).conversations = [] ∧
    (connect
      { initialState with
        conversations :=
          [{ id := "a", title := "A", messages := [], createdAt := 0, lastUpdatedAt := 0 },
           { id := "b", title := "B", messages := [], createdAt := 0, lastUpdatedAt := 0 }]
        currentConversationId := some "a" }
      (some "healthy") none).currentConversationId = none ∧
    (connect
      { initialState with
        conversations :=
          [{ id := "a", title := "A", messages := [], createdAt := 0, lastUpdatedAt := 0 },
           { id := "b", title := "B", messages := [], createdAt := 0, lastUpdatedAt := 0 }]
        currentConversationId := some "a" }
      (some "healthy") none).isConnected = true :=
  connect_healthy_clears_conversations _ none "healthy" rfl

/-! ## deleteConversation / deleteSession (claim C6) -/

/-- C6: when the remote delete succeeds, the conversation and session summary
with the deleted id are removed (all other entries kept) and
`currentConversationId` becomes null exactly when it equaled the deleted id;
when the remote delete fails, conversations, sessions and
`currentConversationId` are unchanged and only the loading flag is cleared. -/
theorem deleteSession_removes_only_on_success (state : StoreState) (id : String) :
    (∀ conv ∈ (deleteSession state id true).conversations, conv.id ≠ id) ∧
    (∀ s ∈ (deleteSession state id true).sessions, s.session_id ≠ id) ∧
    (∀ conv ∈ state.conversations, conv.id ≠ id →
      conv ∈ (deleteSession state id true).conversations) ∧
    (∀ s ∈ state.sessions, s.session_id ≠ id →
      s ∈ (deleteSession state id true).sessions) ∧
    (state.currentConversationId = some id →
      (deleteSession state id true).currentConversationId = none) ∧
    (state.currentConversationId ≠ some id →
      (deleteSession state id true).currentConversationId =
        state.currentConversationId) ∧
    (deleteSession state id false).conversations = state.conversations ∧
    (deleteSession state id false).sessions = state.sessions ∧
    (deleteSession state id false).currentConversationId =
      state.currentConversationId ∧
    (deleteSession state id false).isLoading = false := by
  refine ⟨?_, ?_, ?_, ?_, ?_, ?_, rfl, rfl, rfl, rfl⟩
  · intro conv hmem
    simp only [deleteSession, if_true, List.mem_filter, decide_eq_true_eq] at hmem
    exact hmem.2
  · intro s hmem
    simp only [deleteSession, if_true, List.mem_filter, decide_eq_true_eq] at hmem
    exact hmem.2
  · intro conv hmem hne
    simp only [deleteSession, if_true, List.mem_filter, decide_eq_true_eq]
    exact ⟨hmem, hne⟩
  · intro s hmem hne
    simp only [deleteSession, if_true, List.mem_filter, decide_eq_true_eq]
    exact ⟨hmem, hne⟩
  · intro h
    simp [deleteSession, h]
  · intro h
    simp [deleteSession, h]

/-! ## Optimistic append with no current conversation (claim C7) -/

/-- C7: appending a user message while `currentConversationId` is null creates
exactly one new conversation holding exactly that message, prepends it to the
conversations list, and makes it the current conversation. -/
theorem addMessage_null_current_creates_one (state : StoreState) (content : String)
    (now : Nat) (tempId : String) (h : state.currentConversationId = none) :
    (addMessage state content Role.user now tempId).conversations =
      { id := tempId
        title := createTitleFromContent content
        messages := [{ role := Role.user, content := content, timestamp := now }]
        createdAt := now
        lastUpdatedAt := now } :: state.conversations ∧
    (addMessage state content Role.user now tempId).currentConversationId =
      some tempId := by
  simp [addMessage, truthyId, h]

/-- Witness for C7 at the initial store state. -/
theorem addMessage_null_current_creates_one_witness :
    (addMessage initialState "Show me Q1 sales" Role.user 7 "tid").conversations =
      [{ id := "tid"
         title := createTitleFromContent "Show me Q1 sales"
         messages := [{ role := Role.user, content := "Show me Q1 sales", timestamp := 7 }]
         createdAt := 7
         lastUpdatedAt := 7 }] ∧
    (addMessage initialState "Show me Q1 sales" Role.user 7 "tid").currentConversationId =
      some "tid" :=
  addMessage_null_current_creates_one initialState "Show me Q1 sales" 7 "tid" rfl

/-! ## Send failure keeps the optimistic message (claim C8) -/

/-- Characterization of a truthy id. -/
lemma truthyId_eq_some {o : Option String} {s : String}
    (h : truthyId o = some s) : o = some s ∧ s ≠ "" := by
  cases o with
  | none => exact Option.noConfusion h
  | some t =>
    simp only [truthyId] at h
    split at h
    · exact Option.noConfusion h
    · next hne =>
      injection h with h
      subst h
      exact ⟨rfl, hne⟩

/-- A non-empty id is truthy. -/
lemma truthyId_of_ne {s : String} (h : s ≠ "") : truthyId (some s) = some s := by
  simp [truthyId, h]

/-- Fields of the store `addMessage` never touches. -/
lemma addMessage_fields (state : StoreState) (content : String) (role : Role)
    (now : Nat) (tempId : String) :
    (addMessage state content role now tempId).sessions = state.sessions ∧
    (addMessage state content role now tempId).isLoading = state.isLoading ∧
    (addMessage state content role now tempId).isConnected = state.isConnected ∧
    (addMessage state content role now tempId).connectionError =
      state.connectionError ∧
    (addMessage state content role now tempId).userId = state.userId := by
  cases h : truthyId state.currentConversationId <;>
    simp only [addMessage, h] <;> (try split) <;> simp

/-- Value of `currentConversationId` after `addMessage`: the minted temporary
id when the current id was falsy, else the current id itself. -/
lemma addMessage_current (state : StoreState) (content : String) (role : Role)
    (now : Nat) (tempId : String) :
    (addMessage state content role now tempId).currentConversationId =
      some ((truthyId state.currentConversationId).getD tempId) := by
  cases h : truthyId state.currentConversationId with
  | none => simp [addMessage, h]
  | some cid =>
    obtain ⟨hcur, -⟩ := truthyId_eq_some h
    simp only [addMessage, h]
    split <;> simp [hcur]

/-- Function `addMessage` reads only the conversations, current pointer and
sessions of its state, so states agreeing there produce the same
conversations and current pointer. -/
lemma addMessage_congr (s t : StoreState) (content : String) (role : Role)
    (now : Nat) (tempId : String)
    (hc : s.conversations = t.conversations)
    (hcur : s.currentConversationId = t.currentConversationId)
    (hs : s.sessions = t.sessions) :
    (addMessage s content role now tempId).conversations =
      (addMessage t content role now tempId).conversations ∧
    (addMessage s content role now tempId).currentConversationId =
      (addMessage t content role now tempId).currentConversationId := by
  cases h : truthyId t.currentConversationId <;>
    simp only [addMessage, hc, hcur, hs, h] <;> (try split) <;>
      simp [hc, hcur, hs]

/-- In every branch of `addMessage`, the current conversation afterwards holds
the appended message as its last message. -/
lemma addMessage_appends (state : StoreState) (content : String) (role : Role)
    (now : Nat) (tempId : String) :
    ∃ cid conv, (addMessage state content role now tempId).currentConversationId =
        some cid ∧
      conv ∈ (addMessage state content role now tempId).conversations ∧
      conv.id = cid ∧
      conv.messages.getLast? =
        some { role := role, content := content, timestamp := now } := by
  cases h : truthyId state.currentConversationId with
  | none =>
    simp only [addMessage, h]
    exact ⟨tempId, _, rfl, List.mem_cons_self _ _, rfl, rfl⟩
  | some cid =>
    obtain ⟨hcur, -⟩ := truthyId_eq_some h
    by_cases hany : (state.conversations.any fun c => c.id = cid) = true
    · obtain ⟨conv0, hmem0, hid0⟩ :
          ∃ c ∈ state.conversations, c.id = cid := by
        simpa [List.any_eq_true] using hany
      simp only [addMessage, h, hany, if_true]
      refine ⟨cid, _, hcur, List.mem_map_of_mem _ hmem0, ?_, ?_⟩
      · simp [hid0]
      · simp [hid0, List.getLast?_concat]
    · simp only [addMessage, h, hany, if_false]
      exact ⟨cid, _, hcur, List.mem_cons_self _ _, rfl, rfl⟩

/-- C8: when the chat POST throws, the optimistically appended user message
remains (it is the last message of the current conversation), the loading
flag is cleared, and nothing else changes relative to the optimistic append:
conversations and `currentConversationId` are exactly those the optimistic
append produced, and sessions, connection status and error text are those of
the pre-call state. -/
theorem sendMessageFailure_keeps_optimistic_state (state : StoreState)
    (content : String) (now : Nat) (tempId : String) :
    (sendMessageFailure state content now tempId).isLoading = false ∧
    (sendMessageFailure state content now tempId).sessions = state.sessions ∧
    (sendMessageFailure state content now tempId).isConnected = state.isConnected ∧
    (sendMessageFailure state content now tempId).connectionError =
      state.connectionError ∧
    (sendMessageFailure state content now tempId).userId = state.userId ∧
    (sendMessageFailure state content now tempId).conversations =
      (addMessage state content Role.user now tempId).conversations ∧
    (sendMessageFailure state content now tempId).currentConversationId =
      (addMessage state content Role.user now tempId).currentConversationId ∧
    (∃ cid conv, (sendMessageFailure state content now tempId).currentConversationId =
        some cid ∧
      conv ∈ (sendMessageFailure state content now tempId).conversations ∧
      conv.id = cid ∧
      conv.messages.getLast? =
        some { role := Role.user, content := content, timestamp := now }) := by
  have hfields := addMessage_fields { state with isLoading := true } content
    Role.user now tempId
  have happ := addMessage_appends { state with isLoading := true } content
    Role.user now tempId
  have hcongr := addMessage_congr { state with isLoading := true } state content
    Role.user now tempId rfl rfl rfl
  exact ⟨rfl, hfields.1, hfields.2.2.1, hfields.2.2.2.1, hfields.2.2.2.2,
    hcongr.1, hcongr.2, happ⟩

/-! ## Session-id reconciliation (claim C2) -/

/-- A conversation with a given id survives `addMessage` (all branches keep
existing ids). -/
lemma addMessage_preserves_id_exists (state : StoreState) (content : String)
    (role : Role) (now : Nat) (tempId : String) (C : String)
    (h : ∃ conv ∈ state.conversations, conv.id = C) :
    ∃ conv ∈ (addMessage state content role now tempId).conversations,
      conv.id = C := by
  obtain ⟨conv, hmem, hid⟩ := h
  cases hc : truthyId state.currentConversationId with
  | none =>
    simp only [addMessage, hc]
    exact ⟨conv, List.mem_cons_of_mem _ hmem, hid⟩
  | some cid =>
    by_cases hany : (state.conversations.any fun c => c.id = cid) = true
    · simp only [addMessage, hc, hany, if_true]
      refine ⟨_, List.mem_map_of_mem _ hmem, ?_⟩
      dsimp only
      split <;> exact hid
    · simp only [addMessage, hc, hany, if_false]
      exact ⟨conv, List.mem_cons_of_mem _ hmem, hid⟩

/-- After rewriting every conversation keyed `C` to `S ≠ C`, no conversation
is keyed `C` any more. -/
lemma rename_no_old (l : List Conversation) (C S : String) (hne : S ≠ C) :
    ∀ conv ∈ l.map (fun conv =>
        if conv.id = C then { conv with id := S } else conv),
      conv.id ≠ C := by
  intro conv hmem
  simp only [List.mem_map] at hmem
  obtain ⟨a, -, rfl⟩ := hmem
  by_cases h : a.id = C <;> simp [h, hne]

/-- If some conversation was keyed `C`, the in-place rewrite produces one
keyed `S`. -/
lemma rename_exists (l : List Conversation) (C S : String)
    (h : ∃ conv ∈ l, conv.id = C) :
    ∃ conv ∈ l.map (fun conv =>
        if conv.id = C then { conv with id := S } else conv),
      conv.id = S := by
  obtain ⟨conv, hmem, hid⟩ := h
  refine ⟨_, List.mem_map_of_mem _ hmem, ?_⟩
  simp [hid]

/-- Shape of the `sendMessage` success path when a truthy (non-empty) id is
current and the response's session id differs from it: the conversations
list is the post-append list with ids `C` rewritten in place to the
response's id, and the current pointer moves to the response's id. -/
lemma sendMessageSuccess_some_shape (state : StoreState) (content : String)
    (now : Nat) (tempId : String) (resp : ChatResponse)
    (ls : Option (List Session)) (C : String)
    (hcur : state.currentConversationId = some C) (hCne : C ≠ "")
    (hgen : resp.generation ≠ "") (hsid : resp.session_id ≠ "")
    (hne : resp.session_id ≠ C) :
    (sendMessageSuccess state content now tempId resp ls).conversations =
      (addMessage (addMessage { state with isLoading := true } content Role.user
            now tempId) resp.generation Role.assistant now tempId).conversations.map
        (fun conv =>
          if conv.id = C then { conv with id := resp.session_id } else conv) ∧
    (sendMessageSuccess state content now tempId resp ls).currentConversationId =
      some resp.session_id := by
  have hne' : ¬ C = resp.session_id := fun e => hne e.symm
  have htr : truthyId (some C) = some C := truthyId_of_ne hCne
  cases ls <;>
    simp [sendMessageSuccess, hcur, htr, hgen, hsid, hne', applyLoadSessions]

/-- C2 amended: whenever `currentConversationId` is a non-null and non-empty
`C` at the start of `sendMessage` (the code tests the captured id by JS
truthiness, so the empty string behaves like null — see the counterexample)
and the chat response succeeds with a non-empty generation and a non-empty
`session_id` different from `C`, afterwards the conversation previously
keyed `C` is keyed by the response's session id, no conversation remains
keyed `C`, and `currentConversationId` equals the response's session id. -/
theorem sendMessage_rekeys_conversation (state : StoreState) (content : String)
    (now : Nat) (tempId : String) (resp : ChatResponse)
    (ls : Option (List Session)) (C : String)
    (hcur : state.currentConversationId = some C) (hCne : C ≠ "")
    (hgen : resp.generation ≠ "") (hsid : resp.session_id ≠ "")
    (hne : resp.session_id ≠ C) :
    (sendMessageSuccess state content now tempId resp ls).currentConversationId =
      some resp.session_id ∧
    (∀ conv ∈ (sendMessageSuccess state content now tempId resp ls).conversations,
      conv.id ≠ C) ∧
    ((∃ conv ∈ state.conversations, conv.id = C) →
      ∃ conv ∈ (sendMessageSuccess state content now tempId resp ls).conversations,
        conv.id = resp.session_id) := by
  obtain ⟨hconvs, hcur2⟩ :=
    sendMessageSuccess_some_shape state content now tempId resp ls C hcur hCne
      hgen hsid hne
  refine ⟨hcur2, ?_, ?_⟩
  · rw [hconvs]
    exact rename_no_old _ _ _ hne
  · intro hex
    rw [hconvs]
    refine rename_exists _ _ _ ?_
    refine addMessage_preserves_id_exists _ _ _ _ _ _ ?_
    exact addMessage_preserves_id_exists _ _ _ _ _ _ hex

/-- Witness for C2: one conversation keyed by a UUID, the response carrying a
different session id. -/
theorem sendMessage_rekeys_conversation_witness :
    (sendMessageSuccess
      { initialState with
        conversations :=
          [{ id := "11111111-1111-1111-1111-111111111111", title := "T",
             messages := [], createdAt := 0, lastUpdatedAt := 0 }]
        currentConversationId := some "11111111-1111-1111-1111-111111111111" }
      "hi" 1 "t" ({ generation := "ok",
                    session_id := "22222222-2222-2222-2222-222222222222" } : ChatResponse)
      none).currentConversationId = some "22222222-2222-2222-2222-222222222222" ∧
    (∀ conv ∈ (sendMessageSuccess
      { initialState with
        conversations :=
          [{ id := "11111111-1111-1111-1111-111111111111", title := "T",
             messages := [], createdAt := 0, lastUpdatedAt := 0 }]
        currentConversationId := some "11111111-1111-1111-1111-111111111111" }
      "hi" 1 "t" ({ generation := "ok",
                    session_id := "22222222-2222-2222-2222-222222222222" } : ChatResponse)
      none).conversations, conv.id ≠ "11111111-1111-1111-1111-111111111111") ∧
    ((∃ conv ∈ ({ initialState with
        conversations :=
          [{ id := "11111111-1111-1111-1111-111111111111", title := "T",
             messages := [], createdAt := 0, lastUpdatedAt := 0 }]
        currentConversationId :=
          some "11111111-1111-1111-1111-111111111111" } : StoreState).conversations,
        conv.id = "11111111-1111-1111-1111-111111111111") →
      ∃ conv ∈ (sendMessageSuccess
        { initialState with
          conversations :=
            [{ id := "11111111-1111-1111-1111-111111111111", title := "T",
               messages := [], createdAt := 0, lastUpdatedAt := 0 }]
          currentConversationId := some "11111111-1111-1111-1111-111111111111" }
        "hi" 1 "t" ({ generation := "ok",
                      session_id := "22222222-2222-2222-2222-222222222222" } : ChatResponse)
        none).conversations, conv.id = "22222222-2222-2222-2222-222222222222") :=
  sendMessage_rekeys_conversation _ "hi" 1 "t" _ none
    "11111111-1111-1111-1111-111111111111" rfl (by decide) (by decide) (by decide)
    (by decide)

/-- C2 counterexample: the empty string is a non-null id the claim covers,
and it is reachable — loading a conversation whose session id is `""` keys a
conversation by `""` and makes it current.  Sending a message there, with a
successful response whose session id differs from `""`, leaves the
conversation keyed `""` in place (the falsy captured id mints a fresh
temporary conversation and skips the rename), so no conversation is keyed by
the response's session id and one is still keyed by the old id, falsifying
the claim as stated. -/
theorem sendMessage_rekeys_counterexample :
    (step initialState (Op.loadConversationOp ""
      (some { messages := [(Role.user, "x")], created_at := 0,
              last_updated := 0, title := "T" }))).currentConversationId =
      some "" ∧
    convIds (step (step initialState (Op.loadConversationOp ""
        (some { messages := [(Role.user, "x")], created_at := 0,
                last_updated := 0, title := "T" })))
      (Op.sendMessageOp "hi" 1 "33333333-3333-3333-3333-333333333333"
        (some ({ generation := "ok",
                 session_id := "22222222-2222-2222-2222-222222222222" },
               none)))) =
      ["33333333-3333-3333-3333-333333333333", ""] ∧
    ("ok" : String) ≠ "" ∧
    ("22222222-2222-2222-2222-222222222222" : String) ≠ "" := by
  decide

/-! ## First exchange from the empty store (claim C1)

Evaluation of the success path on the specification's own scenario.  The
response handler's rename branch tests the `currentConversationId` captured
before the optimistic append — which was null — so the conversation keeps the
locally minted temporary id; only `currentConversationId` is moved to the
server's session id, and the session list is refreshed. -/

/-- Claim C1 evaluated on the empty-store scenario: exactly one conversation
holding the user message then the assistant message, the session list
refreshed, `currentConversationId` equal to the response's session id — but
the conversation's id still the temporary id, which differs from the session
id, so the id is not rewritten as the claim states. -/
theorem sendMessage_empty_store_id_not_rewritten :
    (sendMessageSuccess initialState "Show me Q1 sales" 5
        "9f8e7d6c-5b4a-4210-8edc-ba9876543210"
        ({ generation := "Here are your Q1 results",
           session_id := "a1b2c3d4-e5f6-7890-abcd-ef1234567890" } : ChatResponse)
        (some [({ session_id := "a1b2c3d4-e5f6-7890-abcd-ef1234567890",
                  title := "Show me Q1 sales", created_at := 5, last_updated := 5,
                  message_count := 2 } : Session)])).conversations.map
        (fun c => (c.id, c.messages.map Message.content)) =
      [("9f8e7d6c-5b4a-4210-8edc-ba9876543210",
        ["Show me Q1 sales", "Here are your Q1 results"])] ∧
    (sendMessageSuccess initialState "Show me Q1 sales" 5
        "9f8e7d6c-5b4a-4210-8edc-ba9876543210"
        ({ generation := "Here are your Q1 results",
           session_id := "a1b2c3d4-e5f6-7890-abcd-ef1234567890" } : ChatResponse)
        (some [({ session_id := "a1b2c3d4-e5f6-7890-abcd-ef1234567890",
                  title := "Show me Q1 sales", created_at := 5, last_updated := 5,
                  message_count := 2 } : Session)])).currentConversationId =
      some "a1b2c3d4-e5f6-7890-abcd-ef1234567890" ∧
    (sendMessageSuccess initialState "Show me Q1 sales" 5
        "9f8e7d6c-5b4a-4210-8edc-ba9876543210"
        ({ generation := "Here are your Q1 results",
           session_id := "a1b2c3d4-e5f6-7890-abcd-ef1234567890" } : ChatResponse)
        (some [({ session_id := "a1b2c3d4-e5f6-7890-abcd-ef1234567890",
                  title := "Show me Q1 sales", created_at := 5, last_updated := 5,
                  message_count := 2 } : Session)])).sessions =
      [({ session_id := "a1b2c3d4-e5f6-7890-abcd-ef1234567890",
          title := "Show me Q1 sales", created_at := 5, last_updated := 5,
          message_count := 2 } : Session)] ∧
    ("9f8e7d6c-5b4a-4210-8edc-ba9876543210" : String) ≠
      "a1b2c3d4-e5f6-7890-abcd-ef1234567890" := by
  decide

/-! ## The title derivation rule (claim C4) -/

/-- Soundness of the downward scan: a hit is an occurrence, lies within the
bound, and is the last such occurrence within the bound. -/
lemma lastIndexOfAux_eq_some (cs : List Char) (ch : Char) (k i : Nat)
    (h : lastIndexOfAux cs ch k = some i) :
    cs.get? i = some ch ∧ i ≤ k ∧ ∀ j, i < j → j ≤ k → cs.get? j ≠ some ch := by
  induction k with
  | zero =>
    unfold lastIndexOfAux at h
    split at h
    next hc =>
      injection h with h2
      subst h2
      exact ⟨hc, Nat.le_refl 0, fun j hj1 hj2 _ => by omega⟩
    next hc => exact Option.noConfusion h
  | succ k ih =>
    unfold lastIndexOfAux at h
    split at h
    next hc =>
      injection h with h2
      subst h2
      exact ⟨hc, Nat.le_refl _, fun j hj1 hj2 _ => by omega⟩
    next hc =>
      obtain ⟨h1, h2, h3⟩ := ih h
      refine ⟨h1, Nat.le_succ_of_le h2, fun j hj1 hj2 => ?_⟩
      by_cases hjk : j ≤ k
      · exact h3 j hj1 hjk
      · have hj : j = k + 1 := by omega
        subst hj
        exact hc

/-- Completeness of the downward scan: a miss means no occurrence within the
bound. -/
lemma lastIndexOfAux_eq_none (cs : List Char) (ch : Char) (k : Nat)
    (h : lastIndexOfAux cs ch k = none) :
    ∀ j, j ≤ k → cs.get? j ≠ some ch := by
  induction k with
  | zero =>
    unfold lastIndexOfAux at h
    split at h
    next => exact Option.noConfusion h
    next hc =>
      intro j hj
      have hj0 : j = 0 := by omega
      subst hj0
      exact hc
  | succ k ih =>
    unfold lastIndexOfAux at h
    split at h
    next => exact Option.noConfusion h
    next hc =>
      intro j hj
      by_cases hjk : j ≤ k
      · exact ih h j hjk
      · have hj' : j = k + 1 := by omega
        subst hj'
        exact hc

/-- For content longer than 30 characters the JS clamp is inactive. -/
lemma lastIndexOf_thirty (cs : List Char) (ch : Char) (hlen : 30 < cs.length) :
    lastIndexOf cs ch 30 = lastIndexOfAux cs ch 30 := by
  unfold lastIndexOf
  congr 1
  omega

/-- Boolean window test versus its meaning. -/
lemma hasBoundaryIn_iff (cs : List Char) (ch : Char) :
    hasBoundaryIn cs ch = true ↔ ∃ i, 10 < i ∧ i ≤ 30 ∧ cs.get? i = some ch := by
  simp only [hasBoundaryIn, List.any_eq_true, List.mem_range, Bool.and_eq_true,
    decide_eq_true_eq, Nat.lt_succ_iff]
  exact ⟨fun ⟨i, a, b, c⟩ => ⟨i, b, a, c⟩, fun ⟨i, a, b, c⟩ => ⟨i, b, a, c⟩⟩

/-- When no breakpoint character occurs in the window, the loop keeps the
initial break position 30. -/
lemma bestBreakAux_none (cs : List Char) (hlen : 30 < cs.length) (l : List Char)
    (hnone : l.find? (fun ch => hasBoundaryIn cs ch) = none) :
    bestBreakAux cs l = 30 := by
  induction l with
  | nil => rfl
  | cons c rest ih =>
    cases hb : hasBoundaryIn cs c with
    | true =>
      rw [List.find?_cons_of_pos _ hb] at hnone
      cases hnone
    | false =>
      rw [List.find?_cons_of_neg _ (by simp [hb])] at hnone
      simp only [bestBreakAux]
      cases hli : lastIndexOf cs c 30 with
      | none => exact ih hnone
      | some i =>
        have haux : lastIndexOfAux cs c 30 = some i := by
          rw [← lastIndexOf_thirty cs c hlen]
          exact hli
        obtain ⟨h1, h2, h3⟩ := lastIndexOfAux_eq_some cs c 30 i haux
        have h10 : ¬ 10 < i := by
          intro h10
          have hbt : hasBoundaryIn cs c = true :=
            (hasBoundaryIn_iff cs c).mpr ⟨i, h10, h2, h1⟩
          rw [hbt] at hb
          cases hb
        show (if 10 < i then i + 1 else bestBreakAux cs rest) = 30
        rw [if_neg h10]
        exact ih hnone

/-- When a breakpoint character occurs in the window, the first such
character (in list order) wins, and the break position is one past the last
occurrence of that character at or before index 30. -/
lemma bestBreakAux_some (cs : List Char) (hlen : 30 < cs.length) (l : List Char)
    (ch : Char) (hfind : l.find? (fun ch => hasBoundaryIn cs ch) = some ch) :
    ∃ i, 10 < i ∧ i ≤ 30 ∧ cs.get? i = some ch ∧
      (∀ j, i < j → j ≤ 30 → cs.get? j ≠ some ch) ∧ bestBreakAux cs l = i + 1 := by
  induction l with
  | nil => cases hfind
  | cons c rest ih =>
    cases hb : hasBoundaryIn cs c with
    | true =>
      rw [List.find?_cons_of_pos _ hb] at hfind
      have hcch : c = ch := by simpa using hfind
      subst hcch
      obtain ⟨i0, hi1, hi2, hi3⟩ := (hasBoundaryIn_iff cs c).mp hb
      cases hli : lastIndexOf cs c 30 with
      | none =>
        have haux : lastIndexOfAux cs c 30 = none := by
          rw [← lastIndexOf_thirty cs c hlen]
          exact hli
        exact absurd hi3 (lastIndexOfAux_eq_none cs c 30 haux i0 hi2)
      | some i =>
        have haux : lastIndexOfAux cs c 30 = some i := by
          rw [← lastIndexOf_thirty cs c hlen]
          exact hli
        obtain ⟨h1, h2, h3⟩ := lastIndexOfAux_eq_some cs c 30 i haux
        have h10 : 10 < i := by
          by_contra hle
          exact h3 i0 (by omega) hi2 hi3
        refine ⟨i, h10, h2, h1, h3, ?_⟩
        simp only [bestBreakAux, hli]
        rw [if_pos h10]
    | false =>
      rw [List.find?_cons_of_neg _ (by simp [hb])] at hfind
      obtain ⟨i, a, b2, c2, d2, e2⟩ := ih hfind
      refine ⟨i, a, b2, c2, d2, ?_⟩
      simp only [bestBreakAux]
      cases hli : lastIndexOf cs c 30 with
      | none => exact e2
      | some i2 =>
        have haux : lastIndexOfAux cs c 30 = some i2 := by
          rw [← lastIndexOf_thirty cs c hlen]
          exact hli
        obtain ⟨h1, h2, h3⟩ := lastIndexOfAux_eq_some cs c 30 i2 haux
        have h10 : ¬ 10 < i2 := by
          intro h10
          have hbt : hasBoundaryIn cs c = true :=
            (hasBoundaryIn_iff cs c).mpr ⟨i2, h10, h2, h1⟩
          rw [hbt] at hb
          cases hb
        show (if 10 < i2 then i2 + 1 else bestBreakAux cs rest) = i + 1
        rw [if_neg h10]
        exact e2

/-- C4 counterexample: in
`"abcdefghijk lmnopqrs,tuvwxyzABCDE"` the last boundary character at or
before index 30 is the comma at index 20 (past index 10), yet the derived
title cuts at the space at index 11 — the loop prefers the space's last
occurrence because space precedes comma in the breakpoint order — so the
title is not the prefix up to the last boundary (with or without the
boundary character) plus the ellipsis. -/
theorem createTitle_counterexample :
    createTitleFromContent "abcdefghijk lmnopqrs,tuvwxyzABCDE" = "abcdefghijk..." ∧
    30 < ("abcdefghijk lmnopqrs,tuvwxyzABCDE".toList.length) ∧
    "abcdefghijk lmnopqrs,tuvwxyzABCDE".toList.get? 20 = some ',' ∧
    (∀ j < 31, 20 < j → ∀ ch ∈ breakPoints,
      "abcdefghijk lmnopqrs,tuvwxyzABCDE".toList.get? j ≠ some ch) ∧
    ("abcdefghijk..." : String) ≠ "abcdefghijk lmnopqrs,..." ∧
    ("abcdefghijk..." : String) ≠ "abcdefghijk lmnopqrs..." := by
  decide

/-- C4 amended: content of length at most 30 is used verbatim; longer content
is cut at one past the last occurrence at or before index 30 of the first
breakpoint character (space before comma before period before question mark
before exclamation mark) whose last such occurrence is past index 10, the cut
prefix is trimmed and an ellipsis appended; if no breakpoint character occurs
in the window, the first 30 characters are kept, trimmed, with an ellipsis. -/
theorem createTitle_amended (content : String) :
    (content.toList.length ≤ 30 → createTitleFromContent content = content) ∧
    (30 < content.toList.length → TitleSpec content) := by
  constructor
  · intro h
    simp only [createTitleFromContent]
    exact if_pos h
  · intro h
    have hnle : ¬ content.toList.length ≤ 30 := by omega
    unfold TitleSpec
    cases hfind : breakPoints.find? (fun ch => hasBoundaryIn content.toList ch) with
    | none =>
      have hb := bestBreakAux_none content.toList h breakPoints hfind
      simp only [hfind]
      simp only [createTitleFromContent, bestBreak]
      rw [if_neg hnle, hb]
    | some ch =>
      obtain ⟨i, a, b2, c2, d2, e2⟩ :=
        bestBreakAux_some content.toList h breakPoints ch hfind
      simp only [hfind]
      refine ⟨i, a, b2, c2, d2, ?_⟩
      simp only [createTitleFromContent, bestBreak]
      rw [if_neg hnle, e2]

/-- Witness for the amended C4 at one short and one long content. -/
theorem createTitle_amended_witness :
    createTitleFromContent "hello" = "hello" ∧
    TitleSpec "abcdefghijk lmnopqrs,tuvwxyzABCDE" :=
  ⟨(createTitle_amended "hello").1 (by decide),
   (createTitle_amended "abcdefghijk lmnopqrs,tuvwxyzABCDE").2 (by decide)⟩

/-! ## Temporary ids satisfy the UUID pattern (claim C10) -/

/-- Every hex digit character passes the hex test. -/
lemma isHexDig_hexChar : ∀ n < 16, isHexDig (hexChar n) = true := by decide

/-- Both characters of a byte's hex rendering pass the hex test. -/
lemma byteHex_hex (b : Nat) : ∀ c ∈ byteHex b, isHexDig c = true := by
  have h16 : ∀ n : Nat, n % 16 < 16 := fun n => Nat.mod_lt _ (by omega)
  intro c hc
  simp only [byteHex, List.mem_cons, List.not_mem_nil, or_false] at hc
  rcases hc with rfl | rfl
  · exact isHexDig_hexChar _ (h16 _)
  · exact isHexDig_hexChar _ (h16 _)

/-- Consuming exactly the length of an all-hex prefix succeeds and returns
the rest. -/
lemma hexRun_append (g rest : List Char) (h : ∀ c ∈ g, isHexDig c = true) :
    hexRun g.length (g ++ rest) = some rest := by
  induction g with
  | nil => rfl
  | cons c g ih =>
    simp only [List.length_cons, List.cons_append, hexRun,
      h c (List.mem_cons_self c g), if_true]
    exact ih fun x hx => h x (List.mem_cons_of_mem c hx)

/-- Hex-digit lists are closed under append. -/
lemma hexAll_append (g1 g2 : List Char) (h1 : ∀ c ∈ g1, isHexDig c = true)
    (h2 : ∀ c ∈ g2, isHexDig c = true) : ∀ c ∈ g1 ++ g2, isHexDig c = true := by
  intro c hc
  rcases List.mem_append.mp hc with hc | hc
  · exact h1 c hc
  · exact h2 c hc

/-- Five all-hex groups of lengths 8, 4, 4, 4, 12 joined by dashes pass the
UUID regex. -/
lemma isUuidPattern_groups (g1 g2 g3 g4 g5 : List Char)
    (h1 : ∀ c ∈ g1, isHexDig c = true) (l1 : g1.length = 8)
    (h2 : ∀ c ∈ g2, isHexDig c = true) (l2 : g2.length = 4)
    (h3 : ∀ c ∈ g3, isHexDig c = true) (l3 : g3.length = 4)
    (h4 : ∀ c ∈ g4, isHexDig c = true) (l4 : g4.length = 4)
    (h5 : ∀ c ∈ g5, isHexDig c = true) (l5 : g5.length = 12) :
    isUuidPattern ⟨g1 ++ '-' :: g2 ++ '-' :: g3 ++ '-' :: g4 ++ '-' :: g5⟩ = true := by
  have e1 : hexRun 8 (g1 ++ ('-' :: (g2 ++ ('-' :: (g3 ++ ('-' :: (g4 ++ ('-' :: g5)))))))) =
      some ('-' :: (g2 ++ ('-' :: (g3 ++ ('-' :: (g4 ++ ('-' :: g5))))))) := by
    rw [← l1]
    exact hexRun_append g1 _ h1
  have e2 : hexRun 4 (g2 ++ ('-' :: (g3 ++ ('-' :: (g4 ++ ('-' :: g5)))))) =
      some ('-' :: (g3 ++ ('-' :: (g4 ++ ('-' :: g5))))) := by
    rw [← l2]
    exact hexRun_append g2 _ h2
  have e3 : hexRun 4 (g3 ++ ('-' :: (g4 ++ ('-' :: g5)))) =
      some ('-' :: (g4 ++ ('-' :: g5))) := by
    rw [← l3]
    exact hexRun_append g3 _ h3
  have e4 : hexRun 4 (g4 ++ ('-' :: g5)) = some ('-' :: g5) := by
    rw [← l4]
    exact hexRun_append g4 _ h4
  have e5 : hexRun 12 g5 = some [] := by
    rw [← l5]
    have h := hexRun_append g5 [] h5
    rwa [List.append_nil] at h
  have estr : (⟨g1 ++ '-' :: g2 ++ '-' :: g3 ++ '-' :: g4 ++ '-' :: g5⟩ : String).toList =
      g1 ++ '-' :: g2 ++ '-' :: g3 ++ '-' :: g4 ++ '-' :: g5 := rfl
  unfold isUuidPattern
  rw [estr]
  simp only [List.append_assoc, List.cons_append, e1, e2, e3, e4, e5]

/-- C10: every temporary conversation id minted by the message-append
algorithm (a `uuidv4()` string, for any random bytes) matches the canonical
8-4-4-4-12 UUID pattern, so the UUID clause of `sendMessage`'s `session_id`
condition always holds for a temporary id; whether such an id enters the
outgoing chat payload is decided solely by its membership in the sessions
list. -/
theorem tempId_always_uuid_pattern (bytes : List Nat) (state : StoreState)
    (content : String) :
    isUuidPattern (uuidv4 bytes) = true ∧
    (state.currentConversationId = some (uuidv4 bytes) →
      (((buildPayload state content).session_id).isSome = true ↔
        ∃ s ∈ state.sessions, s.session_id = uuidv4 bytes)) := by
  have hpat : isUuidPattern (uuidv4 bytes) = true := by
    simp only [uuidv4]
    apply isUuidPattern_groups
    · exact hexAll_append _ _
        (hexAll_append _ _
          (hexAll_append _ _ (byteHex_hex _) (byteHex_hex _)) (byteHex_hex _))
        (byteHex_hex _)
    · rfl
    · exact hexAll_append _ _ (byteHex_hex _) (byteHex_hex _)
    · rfl
    · exact hexAll_append _ _ (byteHex_hex _) (byteHex_hex _)
    · rfl
    · exact hexAll_append _ _ (byteHex_hex _) (byteHex_hex _)
    · rfl
    · exact hexAll_append _ _
        (hexAll_append _ _
          (hexAll_append _ _
            (hexAll_append _ _
              (hexAll_append _ _ (byteHex_hex _) (byteHex_hex _)) (byteHex_hex _))
            (byteHex_hex _))
          (byteHex_hex _))
        (byteHex_hex _)
    · rfl
  refine ⟨hpat, fun hcur => ⟨?_, ?_⟩⟩
  · intro hsome
    simp only [buildPayload, hcur] at hsome
    split at hsome
    case isTrue hcond =>
      simp only [Bool.and_eq_true, List.any_eq_true, decide_eq_true_eq] at hcond
      exact hcond.1
    case isFalse => simp at hsome
  · intro hmem
    have h := (buildPayload_session_id_eq_some state content (uuidv4 bytes)).mpr
      ⟨hcur, hmem, hpat⟩
    rw [h]
    rfl

/-- Witness for C10 at the all-zero random bytes and a state whose current
pointer is that uuid but whose sessions list does not contain it. -/
theorem tempId_always_uuid_pattern_witness :
    isUuidPattern (uuidv4 (List.replicate 16 0)) = true ∧
    (((buildPayload
        { initialState with
          currentConversationId := some (uuidv4 (List.replicate 16 0)) }
        "q").session_id).isSome = true ↔
      ∃ s ∈ ({ initialState with
          currentConversationId :=
            some (uuidv4 (List.replicate 16 0)) } : StoreState).sessions,
        s.session_id = uuidv4 (List.replicate 16 0)) :=
  ⟨(tempId_always_uuid_pattern (List.replicate 16 0) initialState "q").1,
   (tempId_always_uuid_pattern (List.replicate 16 0)
      { initialState with
        currentConversationId := some (uuidv4 (List.replicate 16 0)) } "q").2 rfl⟩

/-! ## At most one conversation per id (claim C9) -/

/-- Ids after `addMessage` when the current id is falsy (null or empty). -/
lemma convIds_addMessage_none (state : StoreState) (content : String) (role : Role)
    (now : Nat) (tempId : String) (h : truthyId state.currentConversationId = none) :
    convIds (addMessage state content role now tempId) = tempId :: convIds state := by
  simp [addMessage, convIds, h]

/-- Ids after `addMessage` when the current conversation is present locally:
the in-place update keeps every id. -/
lemma convIds_addMessage_found (state : StoreState) (content : String) (role : Role)
    (now : Nat) (tempId : String) (cid : String)
    (h : truthyId state.currentConversationId = some cid)
    (hany : (state.conversations.any fun c => c.id = cid) = true) :
    convIds (addMessage state content role now tempId) = convIds state := by
  simp only [addMessage, convIds, h, hany, if_true]
  rw [List.map_map]
  apply List.map_congr_left
  intro c _
  simp only [Function.comp]
  split <;> rfl

/-- Ids after `addMessage` when the current id has no local conversation:
a conversation with that id is prepended. -/
lemma convIds_addMessage_missing (state : StoreState) (content : String) (role : Role)
    (now : Nat) (tempId : String) (cid : String)
    (h : truthyId state.currentConversationId = some cid)
    (hany : ¬ (state.conversations.any fun c => c.id = cid) = true) :
    convIds (addMessage state content role now tempId) = cid :: convIds state := by
  simp [addMessage, convIds, h, hany]

/-- Uniqueness of ids survives `addMessage` provided a freshly minted
temporary id is not already a conversation id (minting happens whenever the
current id is falsy). -/
lemma addMessage_nodup (state : StoreState) (content : String) (role : Role)
    (now : Nat) (tempId : String)
    (hpre : (convIds state).Nodup)
    (hfresh : truthyId state.currentConversationId = none →
      tempId ∉ convIds state) :
    (convIds (addMessage state content role now tempId)).Nodup := by
  cases h : truthyId state.currentConversationId with
  | none =>
    rw [convIds_addMessage_none state content role now tempId h]
    exact List.nodup_cons.mpr ⟨hfresh h, hpre⟩
  | some cid =>
    by_cases hany : (state.conversations.any fun c => c.id = cid) = true
    · rw [convIds_addMessage_found state content role now tempId cid h hany]
      exact hpre
    · rw [convIds_addMessage_missing state content role now tempId cid h hany]
      refine List.nodup_cons.mpr ⟨?_, hpre⟩
      intro hmem
      apply hany
      simp only [List.any_eq_true, decide_eq_true_eq]
      simp only [convIds, List.mem_map] at hmem
      obtain ⟨c, hc, hid⟩ := hmem
      exact ⟨c, hc, hid⟩

/-- The in-place rename acts on the id list as an id-level map. -/
lemma convIds_map_rename (l : List Conversation) (C S : String) :
    (l.map (fun conv =>
        if conv.id = C then { conv with id := S } else conv)).map Conversation.id
      = (l.map Conversation.id).map (fun i => if i = C then S else i) := by
  rw [List.map_map, List.map_map]
  apply List.map_congr_left
  intro c _
  simp only [Function.comp]
  by_cases h : c.id = C <;> simp [h]

/-- Renaming one id to a value not present elsewhere keeps the id list
duplicate-free. -/
lemma nodup_rename_ids (ids : List String) (C S : String) (h : ids.Nodup)
    (hS : S ∉ ids) : (ids.map (fun i => if i = C then S else i)).Nodup := by
  induction ids with
  | nil => simp
  | cons a l ih =>
    rw [List.nodup_cons] at h
    rw [List.map_cons]
    refine List.nodup_cons.mpr
      ⟨?_, ih h.2 (fun hs => hS (List.mem_cons_of_mem a hs))⟩
    intro hmem
    simp only [List.mem_map] at hmem
    obtain ⟨b, hb, hfb⟩ := hmem
    by_cases ha : a = C
    · rw [if_pos ha] at hfb
      by_cases hbC : b = C
      · rw [if_pos hbC] at hfb
        have hab : a = b := ha.trans hbC.symm
        exact h.1 (by rw [hab]; exact hb)
      · rw [if_neg hbC] at hfb
        exact hS (by rw [← hfb]; exact List.mem_cons_of_mem a hb)
    · rw [if_neg ha] at hfb
      by_cases hbC : b = C
      · rw [if_pos hbC] at hfb
        exact hS (by rw [hfb]; exact List.mem_cons_self a l)
      · rw [if_neg hbC] at hfb
        exact h.1 (by rw [← hfb]; exact hb)

/-- Uniqueness of ids survives the upsert of `loadConversation`. -/
lemma loadConversation_nodup (state : StoreState) (sessionId : String)
    (result : Option ConvResponse) (hpre : (convIds state).Nodup) :
    (convIds (loadConversation state sessionId result)).Nodup := by
  cases result with
  | none => exact hpre
  | some r =>
    simp only [loadConversation, convIds]
    rw [List.map_append]
    apply List.Nodup.append
    · exact hpre.sublist ((List.filter_sublist _).map _)
    · simp
    · intro a ha hb
      simp only [List.map_cons, List.map_nil, List.mem_singleton] at hb
      simp only [List.mem_map, List.mem_filter] at ha
      obtain ⟨c, ⟨hcmem, hcp⟩, hcid⟩ := ha
      simp only [decide_eq_true_eq] at hcp
      exact hcp (by rw [hcid, hb])

/-- The session-list refresh does not touch the conversation list. -/
lemma convIds_applyLoadSessions (st : StoreState) (ls : Option (List Session)) :
    convIds (applyLoadSessions st ls) = convIds st := by
  cases ls <;> rfl

/-- Clearing the loading flag does not touch the conversation list. -/
lemma convIds_isLoading (st : StoreState) (b : Bool) :
    convIds { st with isLoading := b } = convIds st := rfl

/-- Uniqueness of ids survives the `sendMessage` success path provided the
temporary id is non-empty and fresh (it is minted whenever the captured
current id is falsy) and the response's session id does not already key a
conversation other than the current one. -/
lemma sendMessageSuccess_nodup (state : StoreState) (content : String)
    (now : Nat) (tempId : String) (resp : ChatResponse)
    (ls : Option (List Session))
    (hpre : (convIds state).Nodup)
    (hfresh : truthyId state.currentConversationId = none →
      tempId ≠ "" ∧ tempId ∉ convIds state)
    (hS : resp.session_id ∉ convIds state ∨
      state.currentConversationId = some resp.session_id) :
    (convIds (sendMessageSuccess state content now tempId resp ls)).Nodup := by
  obtain ⟨convs, sess, cur, uid, il, ic, ce⟩ := state
  have nod2 : (convIds (addMessage
      { conversations := convs, sessions := sess, currentConversationId := cur,
        userId := uid, isLoading := true, isConnected := ic,
        connectionError := ce } content Role.user now tempId)).Nodup :=
    addMessage_nodup _ content Role.user now tempId hpre (fun h => (hfresh h).2)
  have key : convIds (addMessage (addMessage
      { conversations := convs, sessions := sess, currentConversationId := cur,
        userId := uid, isLoading := true, isConnected := ic,
        connectionError := ce } content Role.user now tempId)
        resp.generation Role.assistant now tempId) =
      convIds (addMessage
      { conversations := convs, sessions := sess, currentConversationId := cur,
        userId := uid, isLoading := true, isConnected := ic,
        connectionError := ce } content Role.user now tempId) := by
    cases htr : truthyId cur with
    | none =>
      obtain ⟨htne, -⟩ := hfresh htr
      have hc1 : (addMessage
          { conversations := convs, sessions := sess, currentConversationId := cur,
            userId := uid, isLoading := true, isConnected := ic,
            connectionError := ce } content Role.user now
          tempId).currentConversationId = some tempId := by
        simp only [addMessage, htr]
      have htr1 : truthyId (addMessage
          { conversations := convs, sessions := sess, currentConversationId := cur,
            userId := uid, isLoading := true, isConnected := ic,
            connectionError := ce } content Role.user now
          tempId).currentConversationId = some tempId := by
        rw [hc1]
        exact truthyId_of_ne htne
      have hany1 : ((addMessage
          { conversations := convs, sessions := sess, currentConversationId := cur,
            userId := uid, isLoading := true, isConnected := ic,
            connectionError := ce } content Role.user now
          tempId).conversations.any fun c => c.id = tempId) = true := by
        simp only [addMessage, htr]
        simp
      exact convIds_addMessage_found _ resp.generation Role.assistant now tempId
        tempId htr1 hany1
    | some C =>
      obtain ⟨hcur, hCne⟩ := truthyId_eq_some htr
      have hc1 : (addMessage
          { conversations := convs, sessions := sess, currentConversationId := cur,
            userId := uid, isLoading := true, isConnected := ic,
            connectionError := ce } content Role.user now
          tempId).currentConversationId = some C := by
        simp only [addMessage, htr]
        split <;> exact hcur
      have htr1 : truthyId (addMessage
          { conversations := convs, sessions := sess, currentConversationId := cur,
            userId := uid, isLoading := true, isConnected := ic,
            connectionError := ce } content Role.user now
          tempId).currentConversationId = some C := by
        rw [hc1]
        exact truthyId_of_ne hCne
      obtain ⟨cid1, conv1, hcid1, hconv1, hconvid1, -⟩ :=
        addMessage_appends
          { conversations := convs, sessions := sess, currentConversationId := cur,
            userId := uid, isLoading := true, isConnected := ic,
            connectionError := ce } content Role.user now tempId
      have hcc : cid1 = C := by
        rw [hc1] at hcid1
        injection hcid1 with h2
        exact h2.symm
      have hany1 : ((addMessage
          { conversations := convs, sessions := sess, currentConversationId := cur,
            userId := uid, isLoading := true, isConnected := ic,
            connectionError := ce } content Role.user now
          tempId).conversations.any fun c => c.id = C) = true := by
        simp only [List.any_eq_true, decide_eq_true_eq]
        exact ⟨conv1, hconv1, by rw [hconvid1, hcc]⟩
      exact convIds_addMessage_found _ resp.generation Role.assistant now tempId
        C htr1 hany1
  have nod3 : (convIds (addMessage (addMessage
      { conversations := convs, sessions := sess, currentConversationId := cur,
        userId := uid, isLoading := true, isConnected := ic,
        connectionError := ce } content Role.user now tempId)
        resp.generation Role.assistant now tempId)).Nodup := by
    rw [key]
    exact nod2
  simp only [sendMessageSuccess]
  split
  case isFalse hgen =>
    rw [convIds_isLoading]
    exact nod2
  case isTrue hgen =>
    split
    case isFalse hguard =>
      rw [convIds_isLoading]
      exact nod3
    case isTrue hguard =>
      cases htr : truthyId cur with
      | none =>
        rw [convIds_isLoading, convIds_applyLoadSessions]
        exact nod3
      | some C =>
        obtain ⟨hcur, hCne⟩ := truthyId_eq_some htr
        subst hcur
        rw [convIds_isLoading, convIds_applyLoadSessions]
        have hCS : ¬ C = resp.session_id := by
          rcases hguard.2 with h | h
          · rw [htr] at h
            exact Option.noConfusion h
          · intro e
            exact h (by rw [e])
        have hSnot : resp.session_id ∉ convIds (addMessage (addMessage
            { conversations := convs, sessions := sess,
              currentConversationId := some C, userId := uid, isLoading := true,
              isConnected := ic, connectionError := ce } content Role.user now
              tempId) resp.generation Role.assistant now tempId) := by
          rcases hS with hS | hS
          · rw [key]
            by_cases hany1 : (convs.any fun c => c.id = C) = true
            · rw [convIds_addMessage_found
                { conversations := convs, sessions := sess,
                  currentConversationId := some C, userId := uid,
                  isLoading := true, isConnected := ic, connectionError := ce }
                content Role.user now tempId C htr hany1]
              exact hS
            · rw [convIds_addMessage_missing
                { conversations := convs, sessions := sess,
                  currentConversationId := some C, userId := uid,
                  isLoading := true, isConnected := ic, connectionError := ce }
                content Role.user now tempId C htr hany1]
              intro hmem
              rcases List.mem_cons.mp hmem with h | h
              · exact hCS h.symm
              · exact hS h
          · injection hS with hS
            exact absurd hS hCS
        show ((addMessage (addMessage
            { conversations := convs, sessions := sess,
              currentConversationId := some C, userId := uid, isLoading := true,
              isConnected := ic, connectionError := ce } content Role.user now
              tempId) resp.generation Role.assistant now
              tempId).conversations.map (fun conv =>
                if conv.id = C then { conv with id := resp.session_id }
                else conv)).map Conversation.id |>.Nodup
        rw [convIds_map_rename]
        exact nodup_rename_ids _ C resp.session_id nod3 hSnot

/-- C9 counterexample: from the initial store, load two conversations with
distinct session ids, then send a message in the second while the backend
replies with the first conversation's session id; the in-place rename then
keys two conversations by the same id, breaking the at-most-one-conversation-
per-id invariant on a reachable state. -/
theorem conversation_ids_duplicate_reachable :
    (convIds (step (step initialState
        (Op.loadConversationOp "aaaaaaaa-aaaa-aaaa-aaaa-aaaaaaaaaaaa"
          (some { messages := [(Role.user, "x")], created_at := 0,
                  last_updated := 0, title := "A" })))
        (Op.loadConversationOp "bbbbbbbb-bbbb-bbbb-bbbb-bbbbbbbbbbbb"
          (some { messages := [(Role.user, "y")], created_at := 0,
                  last_updated := 0, title := "B" })))).Nodup ∧
    ¬ (convIds (step (step (step initialState
        (Op.loadConversationOp "aaaaaaaa-aaaa-aaaa-aaaa-aaaaaaaaaaaa"
          (some { messages := [(Role.user, "x")], created_at := 0,
                  last_updated := 0, title := "A" })))
        (Op.loadConversationOp "bbbbbbbb-bbbb-bbbb-bbbb-bbbbbbbbbbbb"
          (some { messages := [(Role.user, "y")], created_at := 0,
                  last_updated := 0, title := "B" })))
        (Op.sendMessageOp "hi" 1 "cccccccc-cccc-cccc-cccc-cccccccccccc"
          (some ({ generation := "reply",
                   session_id := "aaaaaaaa-aaaa-aaaa-aaaa-aaaaaaaaaaaa" },
                 none))))).Nodup := by
  decide

/-- C9 amended: the conversations list never holds two entries with the same
id, provided every locally minted temporary id is fresh and a successful chat
response never carries a session id that already keys a conversation other
than the current one (the unrestricted claim fails, see the counterexample):
under those side conditions every operation preserves id uniqueness. -/
theorem conversation_ids_nodup_preserved (state : StoreState) (op : Op)
    (hpre : (convIds state).Nodup) (hsafe : opSafe state op) :
    (convIds (step state op)).Nodup := by
  cases op with
  | connectOp health ls =>
    cases health with
    | none => exact hpre
    | some status =>
      by_cases hst : status = "healthy"
      · subst hst
        show (convIds (connect state (some "healthy") ls)).Nodup
        cases ls <;> simp [connect, applyLoadSessions, convIds]
      · show (convIds (connect state (some status) ls)).Nodup
        simp only [connect]
        rw [if_neg hst]
        exact hpre
  | loadSessionsOp result =>
    cases result with
    | none => exact hpre
    | some ss => exact hpre
  | loadConversationOp sid result =>
    exact loadConversation_nodup state sid result hpre
  | sendMessageOp content now tempId outcome =>
    cases outcome with
    | none =>
      exact addMessage_nodup _ content Role.user now tempId hpre
        (fun h => (hsafe.1 h).2)
    | some pair =>
      obtain ⟨resp, ls2⟩ := pair
      exact sendMessageSuccess_nodup state content now tempId resp ls2 hpre
        hsafe.1 hsafe.2
  | startNewOp => exact hpre
  | setCurrentOp id r =>
    show (convIds (setCurrentConversation state id r)).Nodup
    simp only [setCurrentConversation]
    split
    · exact hpre
    · exact loadConversation_nodup state id r hpre
  | deleteSessionOp id ok =>
    cases ok with
    | false => exact hpre
    | true => exact hpre.sublist ((List.filter_sublist _).map _)
  | addMessageOp content role now tempId =>
    exact addMessage_nodup state content role now tempId hpre hsafe
  | setUserIdOp id => simp [step, setUserId, convIds]

/-- Witness for the amended C9: one conversation, a fresh temporary id, and a
response session id keying no other conversation. -/
theorem conversation_ids_nodup_preserved_witness :
    (convIds (step
      { initialState with
        conversations :=
          [{ id := "11111111-1111-1111-1111-111111111111", title := "T",
             messages := [], createdAt := 0, lastUpdatedAt := 0 }]
        currentConversationId := some "11111111-1111-1111-1111-111111111111" }
      (Op.sendMessageOp "hello" 2 "33333333-3333-3333-3333-333333333333"
        (some ({ generation := "ok",
                 session_id := "44444444-4444-4444-4444-444444444444" },
               none))))).Nodup :=
  conversation_ids_nodup_preserved _ _ (by decide)
    ⟨fun h => absurd h (by decide), Or.inl (by decide)⟩
